import Mathlib

/-!
Verification of the `SubsurfaceSampler` kernel
(src/src/appleseed/renderer/kernel/lighting/subsurfacesampler.h).

The sampler is shallowly embedded over real numbers: double-precision values
become `ℝ`, material pointers become identifiers, and the external
collaborators (diffusion profile, intersection service, OSL bump evaluation,
random stream) become explicit data passed to the sampler.  The intersection
service is modelled by the list of hits it reports on successive `trace`
calls before reporting a miss; the loop state (current probe ray, random
stream) is threaded explicitly.  Foundation helpers that the header includes
but whose sources are not part of this repository snapshot (basis, vector,
mis) are modelled from the specification, as marked in their doc comments.
-/

namespace Appleseed

/-- Real 3D vector, modelling appleseed's double-precision `Vector3d`. -/
@[ext]
structure Vec3 where
  x : ℝ
  y : ℝ
  z : ℝ

instance : Add Vec3 := ⟨fun a b => ⟨a.x + b.x, a.y + b.y, a.z + b.z⟩⟩

instance : Sub Vec3 := ⟨fun a b => ⟨a.x - b.x, a.y - b.y, a.z - b.z⟩⟩

instance : Neg Vec3 := ⟨fun a => ⟨-a.x, -a.y, -a.z⟩⟩

instance : SMul ℝ Vec3 := ⟨fun r a => ⟨r * a.x, r * a.y, r * a.z⟩⟩

/-- Dot product of two vectors (`foundation::dot`). -/
def Vec3.dot (a b : Vec3) : ℝ := a.x * b.x + a.y * b.y + a.z * b.z

/-- Squared Euclidean norm (`foundation::square_norm`). -/
def Vec3.squareNorm (a : Vec3) : ℝ := a.dot a

/-- Euclidean norm (`foundation::norm`). -/
noncomputable def Vec3.norm (a : Vec3) : ℝ := Real.sqrt a.squareNorm

/-- Squared norm of a 2D point (`foundation::square_norm` on a `Vector2d`). -/
def squareNorm2 (p : ℝ × ℝ) : ℝ := p.1 * p.1 + p.2 * p.2

/-- Modelled from the spec: `foundation/math/basis.h` is not under `src/`.
Spec section 3 `SamplingFrame`: an orthonormal 3-axis basis with one primary
("normal") role and two tangent roles; the constructor takes
(normal, tangentU, tangentV) in that order. -/
structure Basis3d where
  n : Vec3
  u : Vec3
  v : Vec3

/-- Modelled from the spec: the frame-transform of a local vector (x, y, z)
places the second coordinate along the primary axis and the first and third
along the tangents (spec section 4.3, entry and exit point construction). -/
noncomputable def Basis3d.transformToParent (b : Basis3d) (p : Vec3) : Vec3 :=
  p.x • b.u + p.y • b.n + p.z • b.v

/-- Modelled from the spec: `foundation/math/vector.h` is not under `src/`.
Spec section 4.4: the displacement is projected onto each other axis's plane
(its component along the axis is removed) to obtain the equivalent planar
radius for a strategy that was not chosen. -/
noncomputable def project (a n : Vec3) : Vec3 := a - (a.dot n / n.squareNorm) • n

/-- Modelled from the spec: `foundation/math/mis.h` is not under `src/`.
Power-2 (beta = 2) multiple importance sampling heuristic combining three
strategy densities (spec section 4.4). -/
noncomputable def mis_power2 (q1 q2 q3 : ℝ) : ℝ := q1 ^ 2 / (q1 ^ 2 + q2 ^ 2 + q3 ^ 2)

/-- The three projection axes (`SubsurfaceSampler::Axis`). -/
inductive Axis where
  | NAxis
  | UAxis
  | VAxis
deriving DecidableEq

/-- Result of `pick_sampling_basis`: axis tag, reordered frame and axis
selection probability, modelling the three output parameters of the source
function. -/
structure PickedBasis where
  axis : Axis
  basis : Basis3d
  basisPdf : ℝ

/-- `SubsurfaceSampler::pick_sampling_basis`, translated from the source
(lines 244-276). -/
noncomputable def pick_sampling_basis (shadingBasis : Basis3d) (s : ℝ) : PickedBasis :=
  let n := shadingBasis.n
  let u := shadingBasis.u
  let v := shadingBasis.v
  if s ≤ 0.5 then
    ⟨Axis.NAxis, ⟨n, u, v⟩, 0.5⟩
  else if s ≤ 0.75 then
    ⟨Axis.UAxis, ⟨u, v, n⟩, 0.25⟩
  else
    ⟨Axis.VAxis, ⟨v, n, u⟩, 0.25⟩

/-- Random stream state: the pending scalar draws and pending 2D draws
(spec section 6, RandomStream). -/
structure SamplingContext where
  scalars : List ℝ
  pairs : List (ℝ × ℝ)

/-- Draw one scalar from the stream. -/
def SamplingContext.nextScalar (c : SamplingContext) : ℝ × SamplingContext :=
  (c.scalars.headD 0, ⟨c.scalars.tail, c.pairs⟩)

/-- Draw one 2D sample from the stream. -/
def SamplingContext.nextPair (c : SamplingContext) : (ℝ × ℝ) × SamplingContext :=
  (c.pairs.headD (0, 0), ⟨c.scalars, c.pairs.tail⟩)

/-- Diffusion-profile sample: 2D planar offset, squared maximum radius and
channel index (spec section 3, DiffusionSample; source `BSSRDFSample`). -/
structure BSSRDFSample where
  point : ℝ × ℝ
  rmax2 : ℝ
  channel : ℕ

/-- Diffusion profile contract (spec sections 4.1 and 6): `sampleFn` may
decline and may consume randomness opaquely; `evaluatePdf` is a pure function
of channel and radius.  The opaque profile data pointer of the source is
folded into the closures. -/
structure BSSRDF where
  sampleFn : SamplingContext → Option (BSSRDFSample × SamplingContext)
  evaluatePdf : ℕ → ℝ → ℝ

/-- Which side of the surface a hit landed on (`ObjectInstance` sides). -/
inductive Side where
  | Front
  | Back
deriving DecidableEq

/-- Ray visibility classification; probe rays trigger no surface shading. -/
inductive Visibility where
  | ProbeRay
  | Regular
deriving DecidableEq

/-- Shading point (source `ShadingPoint`): used both for the outgoing point
and for the intersections returned by the intersection service.  Materials
are identifiers standing for the source's material pointers. -/
structure ShadingPoint where
  point : Vec3
  shadingNormal : Vec3
  shadingBasis : Basis3d
  side : Side
  material : ℕ
  oppositeMaterial : ℕ
  hasOSL : Bool
  time : ℝ
  rayDepth : ℕ

/-- Material on the side of a hit that faces the ray (source lines 189-193):
the opposite-side material for a back-face hit, the front material otherwise. -/
def ShadingPoint.facingMaterial (p : ShadingPoint) : ℕ :=
  if p.side = Side.Back then p.oppositeMaterial else p.material

/-- Probe ray (source `ShadingRay`), with the fields the sampler uses. -/
structure ShadingRay where
  org : Vec3
  dir : Vec3
  tmin : ℝ
  tmax : ℝ
  time : ℝ
  visibility : Visibility
  depth : ℕ

/-- One Result Sink invocation: the diffusion sample, the incoming shading
point (after any bump evaluation) and the combined probability. -/
structure Candidate where
  sample : BSSRDFSample
  incoming : ShadingPoint
  probability : ℝ

/-- Kinds of random draws the sampler itself performs, in order. -/
inductive DrawReq where
  | scalar
  | pair
deriving DecidableEq

/-- Observable result of the tracing part of a sampler call: the sink
invocations in order, the probe ray as it stood before each intersector
call, and the random draws performed. -/
structure LoopResult where
  emitted : List Candidate
  raysBefore : List ShadingRay
  draws : List DrawReq

/-- `SubsurfaceSampler::compute_mis_weight`, translated from the source
(lines 278-331). -/
noncomputable def compute_mis_weight (B : BSSRDF) (channel : ℕ) (basis : Basis3d)
    (axis : Axis) (sample_pdf : ℝ)
    (outgoing_point incoming_point incoming_normal : Vec3) : ℝ :=
  let d := incoming_point - outgoing_point
  match axis with
  | Axis.NAxis =>
    let du := (project d basis.u).norm
    let dv := (project d basis.v).norm
    let dot_un := |basis.u.dot incoming_normal|
    let dot_vn := |basis.v.dot incoming_normal|
    let pdf_u := 0.25 * B.evaluatePdf channel du * dot_un
    let pdf_v := 0.25 * B.evaluatePdf channel dv * dot_vn
    mis_power2 (2.0 * sample_pdf) pdf_u pdf_v
  | Axis.UAxis =>
    let dn := (project d basis.n).norm
    let dv := (project d basis.v).norm
    let dot_nn := |basis.n.dot incoming_normal|
    let dot_vn := |basis.v.dot incoming_normal|
    let pdf_n := 0.5 * B.evaluatePdf channel dn * dot_nn
    let pdf_v := 0.25 * B.evaluatePdf channel dv * dot_vn
    mis_power2 sample_pdf (2.0 * pdf_n) pdf_v
  | Axis.VAxis =>
    let dn := (project d basis.n).norm
    let du := (project d basis.u).norm
    let dot_nn := |basis.n.dot incoming_normal|
    let dot_un := |basis.u.dot incoming_normal|
    let pdf_n := 0.5 * B.evaluatePdf channel dn * dot_nn
    let pdf_u := 0.25 * B.evaluatePdf channel du * dot_un
    mis_power2 sample_pdf (2.0 * pdf_n) pdf_u

/-- Tracing loop of `SubsurfaceSampler::sample` (source lines 178-241),
folding over the sequence of hits the intersection service reports before
its first miss.  For each hit the facing material is compared with the
outgoing material; a matching hit gets an optional bump evaluation (one 2D
draw), its combined probability, and a sink invocation; every hit advances
the ray origin to the hit point and shrinks the max distance to the
remaining distance to the exit point. -/
noncomputable def traceLoop (B : BSSRDF) (bs : BSSRDFSample) (samplePdf basisPdf : ℝ)
    (axis : Axis) (basis : Basis3d) (oslBump : ShadingPoint → ℝ × ℝ → Vec3)
    (exitPoint outgoingPos : Vec3) (outgoingMaterial : ℕ) :
    ShadingRay → SamplingContext → List ShadingPoint → LoopResult
  | ray, _, [] => ⟨[], [ray], []⟩
  | ray, ctx, p :: rest =>
    let nextRay : ShadingRay :=
      { ray with org := p.point, tmax := (exitPoint - p.point).norm }
    if p.facingMaterial = outgoingMaterial then
      let bumped : ShadingPoint :=
        if p.hasOSL then { p with shadingNormal := oslBump p (ctx.nextPair).1 } else p
      let ctx1 : SamplingContext := if p.hasOSL then (ctx.nextPair).2 else ctx
      let bumpDraws : List DrawReq := if p.hasOSL then [DrawReq.pair] else []
      let p0 : ℝ := samplePdf * basisPdf * |basis.n.dot bumped.shadingNormal|
      let prob : ℝ :=
        p0 / compute_mis_weight B bs.channel basis axis p0 outgoingPos bumped.point
              bumped.shadingNormal
      let lr := traceLoop B bs samplePdf basisPdf axis basis oslBump exitPoint outgoingPos
                  outgoingMaterial nextRay ctx1 rest
      ⟨⟨bs, bumped, prob⟩ :: lr.emitted, ray :: lr.raysBefore, bumpDraws ++ lr.draws⟩
    else
      let lr := traceLoop B bs samplePdf basisPdf axis basis oslBump exitPoint outgoingPos
                  outgoingMaterial nextRay ctx rest
      ⟨lr.emitted, ray :: lr.raysBefore, lr.draws⟩

/-- The sampling basis picked from the scalar drawn right after the profile
sample (source lines 139-149). -/
noncomputable def pickedOf (outP : ShadingPoint) (ctx0 : SamplingContext) : PickedBasis :=
  pick_sampling_basis outP.shadingBasis (ctx0.nextScalar).1

/-- Height of the sample point on the positive hemisphere of radius rmax
(source line 153). -/
noncomputable def hOf (bs : BSSRDFSample) : ℝ :=
  Real.sqrt (bs.rmax2 - squareNorm2 bs.point)

/-- Sphere entry point (source line 158). -/
noncomputable def entryPointOf (outP : ShadingPoint) (bs : BSSRDFSample)
    (ctx0 : SamplingContext) : Vec3 :=
  outP.point + (pickedOf outP ctx0).basis.transformToParent
    ⟨bs.point.1, hOf bs, bs.point.2⟩

/-- Sphere exit point (source line 159). -/
noncomputable def exitPointOf (outP : ShadingPoint) (bs : BSSRDFSample)
    (ctx0 : SamplingContext) : Vec3 :=
  outP.point + (pickedOf outP ctx0).basis.transformToParent
    ⟨bs.point.1, -hOf bs, bs.point.2⟩

/-- PDF of the diffusion profile at the sampled radius (source lines 134-137). -/
noncomputable def samplePdfOf (B : BSSRDF) (bs : BSSRDFSample) : ℝ :=
  B.evaluatePdf bs.channel (Real.sqrt (squareNorm2 bs.point))

/-- The probe ray inscribed inside the sphere of radius rmax (source
lines 162-170). -/
noncomputable def probeRayOf (outP : ShadingPoint) (bs : BSSRDFSample)
    (ctx0 : SamplingContext) : ShadingRay :=
  { org := entryPointOf outP bs ctx0
    dir := -(pickedOf outP ctx0).basis.n
    tmin := 0
    tmax := 2 * hOf bs
    time := outP.time
    visibility := Visibility.ProbeRay
    depth := outP.rayDepth + 1 }

/-- Observable outcome of one sampler invocation. -/
inductive SampleOutcome where
  | profileDeclined
  | radiusRejected
  | traced (ray : ShadingRay) (result : LoopResult)

/-- Result Sink invocations of an outcome, in order. -/
def SampleOutcome.sinkCalls : SampleOutcome → List Candidate
  | SampleOutcome.traced _ lr => lr.emitted
  | _ => []

/-- Random draws the sampler itself performed, in order. -/
def SampleOutcome.draws : SampleOutcome → List DrawReq
  | SampleOutcome.traced _ lr => lr.draws
  | _ => []

/-- Number of intersector invocations of an outcome. -/
def SampleOutcome.traceCallCount : SampleOutcome → ℕ
  | SampleOutcome.traced _ lr => lr.raysBefore.length
  | _ => 0

/-- The probe ray as it stood before each intersector call. -/
def SampleOutcome.rayList : SampleOutcome → List ShadingRay
  | SampleOutcome.traced _ lr => lr.raysBefore
  | _ => []

/-- The probe ray built by the call, if tracing was reached. -/
def SampleOutcome.probeRay : SampleOutcome → Option ShadingRay
  | SampleOutcome.traced r _ => some r
  | _ => none

/-- The tracing loop as invoked by `sample`: the profile pdf, picked basis,
exit point and initial probe ray are instantiated from the outgoing point,
the accepted diffusion sample and the post-profile random stream. -/
noncomputable def loopOf (oslBump : ShadingPoint → ℝ × ℝ → Vec3) (outP : ShadingPoint)
    (B : BSSRDF) (bs : BSSRDFSample) (ctx0 : SamplingContext)
    (hits : List ShadingPoint) : LoopResult :=
  traceLoop B bs (samplePdfOf B bs) (pickedOf outP ctx0).basisPdf
    (pickedOf outP ctx0).axis (pickedOf outP ctx0).basis oslBump
    (exitPointOf outP bs ctx0) outP.point outP.material
    (probeRayOf outP bs ctx0) (ctx0.nextScalar).2 hits

/-- `SubsurfaceSampler::sample`, translated from the source (lines 113-242).
`oslBump` models `ShadingContext::execute_osl_bump` (spec section 6),
returning the perturbed shading normal; `hits` models the intersection
service as the sequence of hits reported before the first miss. -/
noncomputable def SubsurfaceSampler.sample (oslBump : ShadingPoint → ℝ × ℝ → Vec3)
    (ctx : SamplingContext) (outgoingPoint : ShadingPoint) (B : BSSRDF)
    (hits : List ShadingPoint) : SampleOutcome :=
  match B.sampleFn ctx with
  | none => SampleOutcome.profileDeclined
  | some (bs, ctx0) =>
    if squareNorm2 bs.point > bs.rmax2 then SampleOutcome.radiusRejected
    else
      let lr := loopOf oslBump outgoingPoint B bs ctx0 hits
      SampleOutcome.traced (probeRayOf outgoingPoint bs ctx0)
        ⟨lr.emitted, lr.raysBefore, DrawReq.scalar :: lr.draws⟩

/-- The two control states of the tracing loop (spec section 4.4 state
machine): tracing while the segment remains, done on an intersector miss. -/
inductive TraceStatus where
  | tracing
  | done
deriving DecidableEq

/-- Skeleton of the unbounded tracing loop (source lines 178-241): the
intersection service is modelled as the sequence of its answers to the
successive `trace` calls; the loop leaves the tracing state exactly when the
service reports a miss.  `fuel` is an observation bound only; the source
loop itself has no iteration cap. -/
def runTracerAux (oracle : ℕ → Option ShadingPoint) : ℕ → ℕ → TraceStatus
  | _, 0 => TraceStatus.tracing
  | i, fuel + 1 =>
    match oracle i with
    | none => TraceStatus.done
    | some _ => runTracerAux oracle (i + 1) fuel

/-- Run the tracing-loop skeleton from the first intersector call. -/
def runTracer (oracle : ℕ → Option ShadingPoint) (fuel : ℕ) : TraceStatus :=
  runTracerAux oracle 0 fuel

/-- Zero vector, for concrete instantiations. -/
def vzero : Vec3 := ⟨0, 0, 0⟩

/-- Standard x axis. -/
def axisX : Vec3 := ⟨1, 0, 0⟩

/-- Standard y axis. -/
def axisY : Vec3 := ⟨0, 1, 0⟩

/-- Standard z axis. -/
def axisZ : Vec3 := ⟨0, 0, 1⟩

/-- Concrete orthonormal shading basis with normal along y. -/
def basis0 : Basis3d := ⟨axisY, axisX, axisZ⟩

/-- Default ray used for list indexing with `getD`. -/
def dummyRay : ShadingRay := ⟨vzero, vzero, 0, 0, 0, Visibility.ProbeRay, 0⟩

/-- Default shading point used for list indexing with `getD`. -/
def dummyPoint : ShadingPoint := ⟨vzero, axisY, basis0, Side.Front, 0, 0, false, 0, 0⟩

/-- Concrete outgoing shading point with material 1. -/
def outP0 : ShadingPoint := ⟨vzero, axisY, basis0, Side.Front, 1, 0, false, 0, 0⟩

/-- Concrete diffusion sample at the origin with rmax squared 1. -/
def bs0 : BSSRDFSample := ⟨(0, 0), 1, 0⟩

/-- Concrete diffusion profile that always yields `bs0` and unit density. -/
def bssrdf0 : BSSRDF := ⟨fun c => some (bs0, c), fun _ _ => 1⟩

/-- Concrete diffusion profile that declines to produce a sample. -/
def bssrdfNone : BSSRDF := ⟨fun _ => none, fun _ _ => 1⟩

/-- Concrete diffusion sample beyond the maximum radius. -/
def bsFar : BSSRDFSample := ⟨(1, 1), 1, 0⟩

/-- Concrete diffusion profile producing an out-of-range sample. -/
def bssrdfFar : BSSRDF := ⟨fun c => some (bsFar, c), fun _ _ => 1⟩

/-- Concrete random stream. -/
def sctx0 : SamplingContext := ⟨[0.3], [(0.5, 0.5)]⟩

/-- Concrete bump evaluation that leaves the shading normal unchanged. -/
def bump0 : ShadingPoint → ℝ × ℝ → Vec3 := fun p _ => p.shadingNormal

/-- Concrete hit whose material matches `outP0`. -/
def hitM : ShadingPoint := ⟨vzero, axisY, basis0, Side.Front, 1, 0, false, 0, 0⟩

/-- Concrete hit whose material does not match `outP0`. -/
def hitO : ShadingPoint := ⟨vzero, axisY, basis0, Side.Front, 2, 0, false, 0, 0⟩

@[simp]
theorem Vec3.add_x (a b : Vec3) : (a + b).x = a.x + b.x := rfl

@[simp]
theorem Vec3.add_y (a b : Vec3) : (a + b).y = a.y + b.y := rfl

@[simp]
theorem Vec3.add_z (a b : Vec3) : (a + b).z = a.z + b.z := rfl

@[simp]
theorem Vec3.sub_x (a b : Vec3) : (a - b).x = a.x - b.x := rfl

@[simp]
theorem Vec3.sub_y (a b : Vec3) : (a - b).y = a.y - b.y := rfl

@[simp]
theorem Vec3.sub_z (a b : Vec3) : (a - b).z = a.z - b.z := rfl

@[simp]
theorem Vec3.neg_x (a : Vec3) : (-a).x = -a.x := rfl

@[simp]
theorem Vec3.neg_y (a : Vec3) : (-a).y = -a.y := rfl

@[simp]
theorem Vec3.neg_z (a : Vec3) : (-a).z = -a.z := rfl

@[simp]
theorem Vec3.smul_x (r : ℝ) (a : Vec3) : (r • a).x = r * a.x := rfl

@[simp]
theorem Vec3.smul_y (r : ℝ) (a : Vec3) : (r • a).y = r * a.y := rfl

@[simp]
theorem Vec3.smul_z (r : ℝ) (a : Vec3) : (r • a).z = r * a.z := rfl

theorem Vec3.squareNorm_nonneg (a : Vec3) : 0 ≤ a.squareNorm := by
  have hx := mul_self_nonneg a.x
  have hy := mul_self_nonneg a.y
  have hz := mul_self_nonneg a.z
  simp only [squareNorm, dot]
  linarith

theorem Vec3.norm_nonneg (a : Vec3) : 0 ≤ a.norm := Real.sqrt_nonneg _

theorem Vec3.squareNorm_smul (r : ℝ) (a : Vec3) :
    (r • a).squareNorm = r ^ 2 * a.squareNorm := by
  simp only [squareNorm, dot, smul_x, smul_y, smul_z]
  ring

theorem Vec3.norm_smul (r : ℝ) (a : Vec3) : (r • a).norm = |r| * a.norm := by
  rw [norm, squareNorm_smul, Real.sqrt_mul (sq_nonneg r), Real.sqrt_sq_eq_abs, norm]

theorem pick_branch_n {b : Basis3d} {s : ℝ} (h : s ≤ 0.5) :
    pick_sampling_basis b s = ⟨Axis.NAxis, ⟨b.n, b.u, b.v⟩, 0.5⟩ := by
  simp [pick_sampling_basis, h]

theorem pick_branch_u {b : Basis3d} {s : ℝ} (h1 : ¬ s ≤ 0.5) (h2 : s ≤ 0.75) :
    pick_sampling_basis b s = ⟨Axis.UAxis, ⟨b.u, b.v, b.n⟩, 0.25⟩ := by
  simp [pick_sampling_basis, h1, h2]

theorem pick_branch_v {b : Basis3d} {s : ℝ} (h2 : ¬ s ≤ 0.75) :
    pick_sampling_basis b s = ⟨Axis.VAxis, ⟨b.v, b.n, b.u⟩, 0.25⟩ := by
  have h1 : ¬ s ≤ 0.5 := fun h => h2 (le_trans h (by norm_num))
  simp [pick_sampling_basis, h1, h2]

/-- Claim C2: for every scalar s the axis picker returns, for s ≤ 0.5, the
Normal axis with frame (normal, tangentU, tangentV) and probability 0.5; for
0.5 < s ≤ 0.75 the TangentU axis with frame (tangentU, tangentV, normal) and
probability 0.25; for s > 0.75 the TangentV axis with frame
(tangentV, normal, tangentU) and probability 0.25.  The three selection
probabilities sum to 1, and s = 0.3, 0.6, 0.9 give Normal, TangentU, TangentV
with probabilities 0.5, 0.25, 0.25 respectively. -/
theorem C2_pick_sampling_basis (b : Basis3d) (s : ℝ) :
    (s ≤ 0.5 → pick_sampling_basis b s = ⟨Axis.NAxis, ⟨b.n, b.u, b.v⟩, 0.5⟩) ∧
    (0.5 < s → s ≤ 0.75 →
      pick_sampling_basis b s = ⟨Axis.UAxis, ⟨b.u, b.v, b.n⟩, 0.25⟩) ∧
    (0.75 < s → pick_sampling_basis b s = ⟨Axis.VAxis, ⟨b.v, b.n, b.u⟩, 0.25⟩) ∧
    (pick_sampling_basis b 0.3).basisPdf + (pick_sampling_basis b 0.6).basisPdf +
        (pick_sampling_basis b 0.9).basisPdf = 1 ∧
    pick_sampling_basis b 0.3 = ⟨Axis.NAxis, ⟨b.n, b.u, b.v⟩, 0.5⟩ ∧
    pick_sampling_basis b 0.6 = ⟨Axis.UAxis, ⟨b.u, b.v, b.n⟩, 0.25⟩ ∧
    pick_sampling_basis b 0.9 = ⟨Axis.VAxis, ⟨b.v, b.n, b.u⟩, 0.25⟩ := by
  have h3 : pick_sampling_basis b 0.3 = ⟨Axis.NAxis, ⟨b.n, b.u, b.v⟩, 0.5⟩ :=
    pick_branch_n (by norm_num)
  have h6 : pick_sampling_basis b 0.6 = ⟨Axis.UAxis, ⟨b.u, b.v, b.n⟩, 0.25⟩ :=
    pick_branch_u (by norm_num) (by norm_num)
  have h9 : pick_sampling_basis b 0.9 = ⟨Axis.VAxis, ⟨b.v, b.n, b.u⟩, 0.25⟩ :=
    pick_branch_v (by norm_num)
  refine ⟨fun h => pick_branch_n h,
    fun hl hu => pick_branch_u (not_le.mpr hl) hu,
    fun hv => pick_branch_v (not_le.mpr hv),
    ?_, h3, h6, h9⟩
  rw [h3, h6, h9]
  norm_num

/-- Witness for C2 at the concrete inputs named by the claim. -/
theorem C2_pick_sampling_basis_witness :
    pick_sampling_basis basis0 0.3 =
        ⟨Axis.NAxis, ⟨basis0.n, basis0.u, basis0.v⟩, 0.5⟩ ∧
    pick_sampling_basis basis0 0.6 =
        ⟨Axis.UAxis, ⟨basis0.u, basis0.v, basis0.n⟩, 0.25⟩ ∧
    pick_sampling_basis basis0 0.9 =
        ⟨Axis.VAxis, ⟨basis0.v, basis0.n, basis0.u⟩, 0.25⟩ :=
  ⟨(C2_pick_sampling_basis basis0 0.3).1 (by norm_num),
    (C2_pick_sampling_basis basis0 0.6).2.1 (by norm_num) (by norm_num),
    (C2_pick_sampling_basis basis0 0.9).2.2.1 (by norm_num)⟩

theorem mis_power2_pos {q1 q2 q3 : ℝ} (h : q1 ≠ 0) : 0 < mis_power2 q1 q2 q3 := by
  have h1 : 0 < q1 ^ 2 := by positivity
  have h2 : 0 < q1 ^ 2 + q2 ^ 2 + q3 ^ 2 := by positivity
  exact div_pos h1 h2

theorem mis_power2_le_one {q1 q2 q3 : ℝ} (h : q1 ≠ 0) : mis_power2 q1 q2 q3 ≤ 1 := by
  have h2 : 0 < q1 ^ 2 + q2 ^ 2 + q3 ^ 2 := by positivity
  rw [mis_power2, div_le_one h2]
  nlinarith [sq_nonneg q2, sq_nonneg q3]

/-- Claim C8: for a valid candidate with positive per-axis densities the MIS
combined weight returned by `compute_mis_weight` is strictly positive and
bounded by one (hence finite in the real-number model), and the resulting
probability sample_pdf / weight passed to the Result Sink is strictly
positive. -/
theorem C8_mis_positive (B : BSSRDF) (ch : ℕ) (bb : Basis3d) (axis : Axis)
    (sp : ℝ) (o i nrm : Vec3) (hp : 0 < sp)
    (_hpdf : ∀ r : ℝ, 0 < B.evaluatePdf ch r) :
    0 < compute_mis_weight B ch bb axis sp o i nrm ∧
    compute_mis_weight B ch bb axis sp o i nrm ≤ 1 ∧
    0 < sp / compute_mis_weight B ch bb axis sp o i nrm := by
  have hq : (2.0 : ℝ) * sp ≠ 0 := by positivity
  have hq' : sp ≠ 0 := ne_of_gt hp
  cases axis with
  | NAxis =>
    refine ⟨mis_power2_pos hq, mis_power2_le_one hq, ?_⟩
    exact div_pos hp (mis_power2_pos hq)
  | UAxis =>
    refine ⟨mis_power2_pos hq', mis_power2_le_one hq', ?_⟩
    exact div_pos hp (mis_power2_pos hq')
  | VAxis =>
    refine ⟨mis_power2_pos hq', mis_power2_le_one hq', ?_⟩
    exact div_pos hp (mis_power2_pos hq')

/-- Witness for C8 at a concrete candidate with unit densities. -/
theorem C8_mis_positive_witness :
    0 < compute_mis_weight bssrdf0 0 basis0 Axis.NAxis 1 vzero vzero axisY ∧
    0 < 1 / compute_mis_weight bssrdf0 0 basis0 Axis.NAxis 1 vzero vzero axisY := by
  have h := C8_mis_positive bssrdf0 0 basis0 Axis.NAxis 1 vzero vzero axisY
    (by norm_num) (fun r => by simp [bssrdf0])
  exact ⟨h.1, h.2.2⟩

theorem runTracerAux_done_iff (oracle : ℕ → Option ShadingPoint) :
    ∀ (fuel i : ℕ),
      runTracerAux oracle i fuel = TraceStatus.done ↔
        ∃ k, k < fuel ∧ oracle (i + k) = none := by
  intro fuel
  induction fuel with
  | zero =>
    intro i
    simp [runTracerAux]
  | succ f ih =>
    intro i
    cases h : oracle i with
    | none =>
      refine ⟨fun _ => ⟨0, Nat.succ_pos f, by simpa using h⟩, fun _ => ?_⟩
      simp [runTracerAux, h]
    | some p =>
      simp only [runTracerAux, h]
      rw [ih (i + 1)]
      constructor
      · rintro ⟨k, hk, hnone⟩
        refine ⟨k + 1, by omega, ?_⟩
        rwa [show i + (k + 1) = i + 1 + k by omega]
      · rintro ⟨k, hk, hnone⟩
        cases k with
        | zero =>
          rw [Nat.add_zero] at hnone
          rw [h] at hnone
          cases hnone
        | succ k' =>
          refine ⟨k', by omega, ?_⟩
          rwa [show i + 1 + k' = i + (k' + 1) by omega]

/-- Claim C9: the tracer skeleton has exactly two states, and with no
iteration cap of its own it reaches the done state within a given number of
intersector calls if and only if the intersection service reports a miss
within that many calls; an intersection service modelled by a finite hit
list always terminates the loop. -/
theorem C9_tracer_termination :
    (∀ (oracle : ℕ → Option ShadingPoint) (fuel : ℕ),
      runTracer oracle fuel = TraceStatus.done ↔
        ∃ k, k < fuel ∧ oracle k = none) ∧
    (∀ s : TraceStatus, s = TraceStatus.tracing ∨ s = TraceStatus.done) ∧
    (∀ hits : List ShadingPoint,
      runTracer (fun i => hits.get? i) (hits.length + 1) = TraceStatus.done) := by
  refine ⟨fun oracle fuel => ?_, fun s => ?_, fun hits => ?_⟩
  · rw [runTracer, runTracerAux_done_iff]
    simp
  · cases s
    · exact Or.inl rfl
    · exact Or.inr rfl
  · rw [runTracer, runTracerAux_done_iff]
    exact ⟨hits.length, by omega, by simp⟩

/-- Witness for C9: an immediate miss terminates the loop in one call. -/
theorem C9_tracer_termination_witness :
    runTracer (fun _ => none) 1 = TraceStatus.done :=
  (C9_tracer_termination.1 (fun _ => none) 1).mpr ⟨0, by omega, rfl⟩

theorem sample_none {oslBump : ShadingPoint → ℝ × ℝ → Vec3} {ctx : SamplingContext}
    {outP : ShadingPoint} {B : BSSRDF} {hits : List ShadingPoint}
    (h : B.sampleFn ctx = none) :
    SubsurfaceSampler.sample oslBump ctx outP B hits = SampleOutcome.profileDeclined := by
  simp [SubsurfaceSampler.sample, h]

theorem sample_rejected {oslBump : ShadingPoint → ℝ × ℝ → Vec3} {ctx : SamplingContext}
    {outP : ShadingPoint} {B : BSSRDF} {hits : List ShadingPoint}
    {bs : BSSRDFSample} {ctx0 : SamplingContext}
    (h : B.sampleFn ctx = some (bs, ctx0)) (hrad : squareNorm2 bs.point > bs.rmax2) :
    SubsurfaceSampler.sample oslBump ctx outP B hits = SampleOutcome.radiusRejected := by
  simp [SubsurfaceSampler.sample, h, hrad]

theorem sample_traced {oslBump : ShadingPoint → ℝ × ℝ → Vec3} {ctx : SamplingContext}
    {outP : ShadingPoint} {B : BSSRDF} {hits : List ShadingPoint}
    {bs : BSSRDFSample} {ctx0 : SamplingContext}
    (h : B.sampleFn ctx = some (bs, ctx0)) (hrad : ¬ squareNorm2 bs.point > bs.rmax2) :
    SubsurfaceSampler.sample oslBump ctx outP B hits =
      SampleOutcome.traced (probeRayOf outP bs ctx0)
        ⟨(loopOf oslBump outP B bs ctx0 hits).emitted,
          (loopOf oslBump outP B bs ctx0 hits).raysBefore,
          DrawReq.scalar :: (loopOf oslBump outP B bs ctx0 hits).draws⟩ := by
  simp only [SubsurfaceSampler.sample, h]
  rw [if_neg hrad]

theorem traceLoop_emitted_spec (B : BSSRDF) (bs : BSSRDFSample)
    (samplePdf basisPdf : ℝ) (axis : Axis) (basis : Basis3d)
    (oslBump : ShadingPoint → ℝ × ℝ → Vec3) (exitPoint outgoingPos : Vec3)
    (outMat : ℕ) :
    ∀ (hits : List ShadingPoint) (ray : ShadingRay) (ctx : SamplingContext),
      ((traceLoop B bs samplePdf basisPdf axis basis oslBump exitPoint outgoingPos
          outMat ray ctx hits).emitted.map fun c => c.incoming.point)
        = ((hits.filter fun p => p.facingMaterial == outMat).map fun p => p.point) ∧
      (∀ c ∈ (traceLoop B bs samplePdf basisPdf axis basis oslBump exitPoint outgoingPos
          outMat ray ctx hits).emitted,
        c.sample = bs ∧ c.incoming.facingMaterial = outMat ∧
        c.probability =
          samplePdf * basisPdf * |basis.n.dot c.incoming.shadingNormal| /
            compute_mis_weight B bs.channel basis axis
              (samplePdf * basisPdf * |basis.n.dot c.incoming.shadingNormal|)
              outgoingPos c.incoming.point c.incoming.shadingNormal) ∧
      (traceLoop B bs samplePdf basisPdf axis basis oslBump exitPoint outgoingPos
          outMat ray ctx hits).draws
        = List.replicate
            ((hits.filter fun p => p.facingMaterial == outMat && p.hasOSL).length)
            DrawReq.pair := by
  intro hits
  induction hits with
  | nil =>
    intro ray ctx
    refine ⟨?_, ?_, ?_⟩ <;> simp [traceLoop]
  | cons p rest ih =>
    intro ray ctx
    by_cases hm : p.facingMaterial = outMat
    · by_cases ho : p.hasOSL
      · obtain ⟨ih1, ih2, ih3⟩ :=
          ih { ray with org := p.point, tmax := (exitPoint - p.point).norm }
            (ctx.nextPair).2
        refine ⟨?_, ?_, ?_⟩
        · simpa [traceLoop, hm, ho, List.filter_cons] using ih1
        · intro c hc
          simp only [traceLoop, if_pos hm, if_pos ho] at hc
          rcases List.mem_cons.mp hc with hc | hc
          · subst hc
            exact ⟨rfl, by simpa [ShadingPoint.facingMaterial] using hm, rfl⟩
          · exact ih2 c hc
        · simp [traceLoop, hm, ho, List.filter_cons, ih3, List.replicate_succ]
      · obtain ⟨ih1, ih2, ih3⟩ :=
          ih { ray with org := p.point, tmax := (exitPoint - p.point).norm } ctx
        refine ⟨?_, ?_, ?_⟩
        · simpa [traceLoop, hm, ho, List.filter_cons] using ih1
        · intro c hc
          simp only [traceLoop, if_pos hm, if_neg ho] at hc
          rcases List.mem_cons.mp hc with hc | hc
          · subst hc
            exact ⟨rfl, hm, rfl⟩
          · exact ih2 c hc
        · simpa [traceLoop, hm, ho, List.filter_cons] using ih3
    · obtain ⟨ih1, ih2, ih3⟩ :=
        ih { ray with org := p.point, tmax := (exitPoint - p.point).norm } ctx
      refine ⟨?_, ?_, ?_⟩
      · simpa [traceLoop, hm, List.filter_cons] using ih1
      · intro c hc
        simp only [traceLoop, if_neg hm] at hc
        exact ih2 c hc
      · simpa [traceLoop, hm, List.filter_cons] using ih3

theorem traceLoop_rays_spec (B : BSSRDF) (bs : BSSRDFSample)
    (samplePdf basisPdf : ℝ) (axis : Axis) (basis : Basis3d)
    (oslBump : ShadingPoint → ℝ × ℝ → Vec3) (exitPoint outgoingPos : Vec3)
    (outMat : ℕ) :
    ∀ (hits : List ShadingPoint) (ray : ShadingRay) (ctx : SamplingContext),
      (traceLoop B bs samplePdf basisPdf axis basis oslBump exitPoint outgoingPos
          outMat ray ctx hits).raysBefore.length = hits.length + 1 ∧
      (traceLoop B bs samplePdf basisPdf axis basis oslBump exitPoint outgoingPos
          outMat ray ctx hits).raysBefore.getD 0 dummyRay = ray ∧
      (∀ r ∈ (traceLoop B bs samplePdf basisPdf axis basis oslBump exitPoint outgoingPos
          outMat ray ctx hits).raysBefore, r.dir = ray.dir) ∧
      (∀ i, i < hits.length →
        ((traceLoop B bs samplePdf basisPdf axis basis oslBump exitPoint outgoingPos
            outMat ray ctx hits).raysBefore.getD (i + 1) dummyRay).org
            = (hits.getD i dummyPoint).point ∧
        ((traceLoop B bs samplePdf basisPdf axis basis oslBump exitPoint outgoingPos
            outMat ray ctx hits).raysBefore.getD (i + 1) dummyRay).tmax
            = (exitPoint - (hits.getD i dummyPoint).point).norm) := by
  intro hits
  induction hits with
  | nil =>
    intro ray ctx
    refine ⟨by simp [traceLoop], by simp [traceLoop], ?_, ?_⟩
    · intro r hr
      simp only [traceLoop, List.mem_singleton] at hr
      subst hr
      rfl
    · intro i hi
      simp at hi
  | cons p rest ih =>
    intro ray ctx
    by_cases hm : p.facingMaterial = outMat
    · obtain ⟨ihL, ihH, ihD, ihI⟩ :=
        ih { ray with org := p.point, tmax := (exitPoint - p.point).norm }
          (if p.hasOSL then (ctx.nextPair).2 else ctx)
      refine ⟨?_, ?_, ?_, ?_⟩
      · simp [traceLoop, hm, ihL]
      · simp [traceLoop, hm]
      · intro r hr
        simp only [traceLoop, if_pos hm] at hr
        rcases List.mem_cons.mp hr with hr | hr
        · subst hr; rfl
        · exact ihD r hr
      · intro i hi
        cases i with
        | zero =>
          simp only [traceLoop, if_pos hm, List.getD_cons_succ, List.getD_cons_zero]
          rw [ihH]
          exact ⟨rfl, rfl⟩
        | succ j =>
          have hj : j < rest.length := by
            simpa using Nat.lt_of_succ_lt_succ hi
          have hrec := ihI j hj
          simp only [traceLoop, if_pos hm, List.getD_cons_succ]
          exact hrec
    · obtain ⟨ihL, ihH, ihD, ihI⟩ :=
        ih { ray with org := p.point, tmax := (exitPoint - p.point).norm } ctx
      refine ⟨?_, ?_, ?_, ?_⟩
      · simp [traceLoop, hm, ihL]
      · simp [traceLoop, hm]
      · intro r hr
        simp only [traceLoop, if_neg hm] at hr
        rcases List.mem_cons.mp hr with hr | hr
        · subst hr; rfl
        · exact ihD r hr
      · intro i hi
        cases i with
        | zero =>
          simp only [traceLoop, if_neg hm, List.getD_cons_succ, List.getD_cons_zero]
          rw [ihH]
          exact ⟨rfl, rfl⟩
        | succ j =>
          have hj : j < rest.length := by
            simpa using Nat.lt_of_succ_lt_succ hi
          have hrec := ihI j hj
          simp only [traceLoop, if_neg hm, List.getD_cons_succ]
          exact hrec

/-- Claim C5: the sampler returns early, with no Result Sink invocation, when
the diffusion profile declines, when the sampled radius squared exceeds rmax
squared (in which case no intersector call is made at all), and when the
intersection service reports a miss before any matching hit. -/
theorem C5_early_returns (oslBump : ShadingPoint → ℝ × ℝ → Vec3)
    (ctx : SamplingContext) (outP : ShadingPoint) (B : BSSRDF)
    (hits : List ShadingPoint) :
    (B.sampleFn ctx = none →
      SubsurfaceSampler.sample oslBump ctx outP B hits
          = SampleOutcome.profileDeclined ∧
      (SubsurfaceSampler.sample oslBump ctx outP B hits).sinkCalls = [] ∧
      (SubsurfaceSampler.sample oslBump ctx outP B hits).traceCallCount = 0) ∧
    (∀ (bs : BSSRDFSample) (ctx0 : SamplingContext),
      B.sampleFn ctx = some (bs, ctx0) → squareNorm2 bs.point > bs.rmax2 →
      SubsurfaceSampler.sample oslBump ctx outP B hits
          = SampleOutcome.radiusRejected ∧
      (SubsurfaceSampler.sample oslBump ctx outP B hits).sinkCalls = [] ∧
      (SubsurfaceSampler.sample oslBump ctx outP B hits).traceCallCount = 0) ∧
    (∀ (bs : BSSRDFSample) (ctx0 : SamplingContext),
      B.sampleFn ctx = some (bs, ctx0) → ¬ squareNorm2 bs.point > bs.rmax2 →
      (∀ p ∈ hits, p.facingMaterial ≠ outP.material) →
      (SubsurfaceSampler.sample oslBump ctx outP B hits).sinkCalls = []) := by
  refine ⟨fun h => ?_, fun bs ctx0 h hrad => ?_, fun bs ctx0 h hrad hnone => ?_⟩
  · rw [sample_none h]
    exact ⟨rfl, rfl, rfl⟩
  · rw [sample_rejected h hrad]
    exact ⟨rfl, rfl, rfl⟩
  · rw [sample_traced h hrad]
    have hmap := (traceLoop_emitted_spec B bs (samplePdfOf B bs)
      (pickedOf outP ctx0).basisPdf (pickedOf outP ctx0).axis
      (pickedOf outP ctx0).basis oslBump (exitPointOf outP bs ctx0) outP.point
      outP.material hits (probeRayOf outP bs ctx0) (ctx0.nextScalar).2).1
    have hfil : (hits.filter fun p => p.facingMaterial == outP.material) = [] := by
      rw [List.filter_eq_nil_iff]
      intro p hp
      simpa using hnone p hp
    rw [hfil, List.map_nil] at hmap
    have hemp := List.map_eq_nil_iff.mp hmap
    simpa [SampleOutcome.sinkCalls, loopOf] using hemp

/-- Claim C7: after the diffusion-profile sample is accepted, the sampler
consumes exactly one scalar draw for axis selection and then one 2D draw per
matching hit whose material has an OSL surface, in traversal order, and no
other draws; on the early-return paths (profile declined, radius rejected)
it consumes none.  Determinism is inherent: the embedded sampler is a pure
function of its inputs. -/
theorem C7_randomness_order (oslBump : ShadingPoint → ℝ × ℝ → Vec3)
    (ctx : SamplingContext) (outP : ShadingPoint) (B : BSSRDF)
    (hits : List ShadingPoint) :
    (B.sampleFn ctx = none →
      (SubsurfaceSampler.sample oslBump ctx outP B hits).draws = []) ∧
    (∀ (bs : BSSRDFSample) (ctx0 : SamplingContext),
      B.sampleFn ctx = some (bs, ctx0) → squareNorm2 bs.point > bs.rmax2 →
      (SubsurfaceSampler.sample oslBump ctx outP B hits).draws = []) ∧
    (∀ (bs : BSSRDFSample) (ctx0 : SamplingContext),
      B.sampleFn ctx = some (bs, ctx0) → ¬ squareNorm2 bs.point > bs.rmax2 →
      (SubsurfaceSampler.sample oslBump ctx outP B hits).draws
        = DrawReq.scalar ::
            List.replicate
              ((hits.filter fun p =>
                  p.facingMaterial == outP.material && p.hasOSL).length)
              DrawReq.pair) := by
  refine ⟨fun h => ?_, fun bs ctx0 h hrad => ?_, fun bs ctx0 h hrad => ?_⟩
  · rw [sample_none h]
    rfl
  · rw [sample_rejected h hrad]
    rfl
  · rw [sample_traced h hrad]
    have hdraws := (traceLoop_emitted_spec B bs (samplePdfOf B bs)
      (pickedOf outP ctx0).basisPdf (pickedOf outP ctx0).axis
      (pickedOf outP ctx0).basis oslBump (exitPointOf outP bs ctx0) outP.point
      outP.material hits (probeRayOf outP bs ctx0) (ctx0.nextScalar).2).2.2
    simpa [SampleOutcome.draws, loopOf] using hdraws

/-- Claim C4: the sampler selects the material on the side facing the ray,
invokes the Result Sink exactly for the hits whose facing material equals the
outgoing material, and continues tracing past non-matching hits, so matching
hits beyond non-matching geometry are still emitted, in order. -/
theorem C4_material_filtering (oslBump : ShadingPoint → ℝ × ℝ → Vec3)
    (ctx : SamplingContext) (outP : ShadingPoint) (B : BSSRDF)
    (hits : List ShadingPoint) (bs : BSSRDFSample) (ctx0 : SamplingContext)
    (hsf : B.sampleFn ctx = some (bs, ctx0))
    (hrad : ¬ squareNorm2 bs.point > bs.rmax2) :
    (∀ p : ShadingPoint,
      p.facingMaterial
        = if p.side = Side.Back then p.oppositeMaterial else p.material) ∧
    ((SubsurfaceSampler.sample oslBump ctx outP B hits).sinkCalls.map
        fun c => c.incoming.point)
      = ((hits.filter fun p => p.facingMaterial == outP.material).map
          fun p => p.point) ∧
    (∀ c ∈ (SubsurfaceSampler.sample oslBump ctx outP B hits).sinkCalls,
      c.incoming.facingMaterial = outP.material) := by
  have hspec := traceLoop_emitted_spec B bs (samplePdfOf B bs)
    (pickedOf outP ctx0).basisPdf (pickedOf outP ctx0).axis
    (pickedOf outP ctx0).basis oslBump (exitPointOf outP bs ctx0) outP.point
    outP.material hits (probeRayOf outP bs ctx0) (ctx0.nextScalar).2
  refine ⟨fun p => rfl, ?_, ?_⟩
  · rw [sample_traced hsf hrad]
    simpa [SampleOutcome.sinkCalls, loopOf] using hspec.1
  · intro c hc
    rw [sample_traced hsf hrad] at hc
    exact (hspec.2.1 c (by simpa [loopOf] using hc)).2.1

/-- Witness for C4: a matching hit beyond a non-matching one is emitted. -/
theorem C4_material_filtering_witness :
    ((SubsurfaceSampler.sample bump0 sctx0 outP0 bssrdf0 [hitO, hitM]).sinkCalls.map
        fun c => c.incoming.point)
      = [hitM.point] := by
  have h := C4_material_filtering bump0 sctx0 outP0 bssrdf0 [hitO, hitM] bs0 sctx0
    rfl (by norm_num [bs0, squareNorm2])
  rw [h.2.1]
  simp [hitO, hitM, outP0, ShadingPoint.facingMaterial]

/-- Witness for C5 on the three early-return conditions. -/
theorem C5_early_returns_witness :
    SubsurfaceSampler.sample bump0 sctx0 outP0 bssrdfNone [hitM]
        = SampleOutcome.profileDeclined ∧
    (SubsurfaceSampler.sample bump0 sctx0 outP0 bssrdfFar [hitM]).traceCallCount
        = 0 ∧
    (SubsurfaceSampler.sample bump0 sctx0 outP0 bssrdf0 [hitO]).sinkCalls = [] := by
  refine ⟨((C5_early_returns bump0 sctx0 outP0 bssrdfNone [hitM]).1 rfl).1,
    ((C5_early_returns bump0 sctx0 outP0 bssrdfFar [hitM]).2.1 bsFar sctx0 rfl
      (by norm_num [bsFar, squareNorm2])).2.2,
    (C5_early_returns bump0 sctx0 outP0 bssrdf0 [hitO]).2.2 bs0 sctx0 rfl
      (by norm_num [bs0, squareNorm2]) ?_⟩
  intro p hp
  simp only [List.mem_singleton] at hp
  subst hp
  simp [hitO, outP0, ShadingPoint.facingMaterial]

theorem picked_primary_cases (b : Basis3d) (s : ℝ) :
    (pick_sampling_basis b s).basis.n = b.n ∨
      (pick_sampling_basis b s).basis.n = b.u ∨
      (pick_sampling_basis b s).basis.n = b.v := by
  by_cases h1 : s ≤ 0.5
  · rw [pick_branch_n h1]
    exact Or.inl rfl
  · by_cases h2 : s ≤ 0.75
    · rw [pick_branch_u h1 h2]
      exact Or.inr (Or.inl rfl)
    · rw [pick_branch_v h2]
      exact Or.inr (Or.inr rfl)

theorem norm_of_unit {a : Vec3} (h : a.squareNorm = 1) : a.norm = 1 := by
  rw [Vec3.norm, h, Real.sqrt_one]

theorem hOf_sq (bs : BSSRDFSample) (hrad : ¬ squareNorm2 bs.point > bs.rmax2) :
    hOf bs ^ 2 = bs.rmax2 - squareNorm2 bs.point := by
  have hle : squareNorm2 bs.point ≤ bs.rmax2 := not_lt.mp hrad
  rw [hOf]
  exact Real.sq_sqrt (by linarith)

theorem exit_sub_entry (outP : ShadingPoint) (bs : BSSRDFSample)
    (ctx0 : SamplingContext) :
    exitPointOf outP bs ctx0 - entryPointOf outP bs ctx0
      = (-(2 * hOf bs)) • (pickedOf outP ctx0).basis.n := by
  unfold exitPointOf entryPointOf Basis3d.transformToParent
  ext <;> simp <;> ring

theorem exit_entry_dist (outP : ShadingPoint) (bs : BSSRDFSample)
    (ctx0 : SamplingContext)
    (hn : outP.shadingBasis.n.squareNorm = 1)
    (hu : outP.shadingBasis.u.squareNorm = 1)
    (hv : outP.shadingBasis.v.squareNorm = 1) :
    (exitPointOf outP bs ctx0 - entryPointOf outP bs ctx0).norm = 2 * hOf bs := by
  have hh : 0 ≤ hOf bs := Real.sqrt_nonneg _
  have hunit : (pickedOf outP ctx0).basis.n.norm = 1 := by
    unfold pickedOf
    rcases picked_primary_cases outP.shadingBasis (ctx0.nextScalar).1 with h | h | h <;>
      rw [h]
    · exact norm_of_unit hn
    · exact norm_of_unit hu
    · exact norm_of_unit hv
  rw [exit_sub_entry, Vec3.norm_smul, hunit, mul_one, abs_neg,
    abs_of_nonneg (by linarith)]

/-- Claim C3: for a diffusion sample passing the radius check the probe
segment has entry point at the outgoing position plus the frame transform of
(x, +h, z), exit point at the outgoing position plus the frame transform of
(x, -h, z), ray direction the negated primary axis, distance bounds 0 to 2h,
inherited time, incremented depth, probe-only visibility; h squared plus
radius squared equals rmax squared exactly, and the entry-to-exit distance
equals 2h exactly (hence within the 1e-9 relative tolerance the claim
allows). -/
theorem C3_probe_segment (oslBump : ShadingPoint → ℝ × ℝ → Vec3)
    (ctx : SamplingContext) (outP : ShadingPoint) (B : BSSRDF)
    (hits : List ShadingPoint) (bs : BSSRDFSample) (ctx0 : SamplingContext)
    (hsf : B.sampleFn ctx = some (bs, ctx0))
    (hrad : ¬ squareNorm2 bs.point > bs.rmax2)
    (hn : outP.shadingBasis.n.squareNorm = 1)
    (hu : outP.shadingBasis.u.squareNorm = 1)
    (hv : outP.shadingBasis.v.squareNorm = 1) :
    (SubsurfaceSampler.sample oslBump ctx outP B hits).probeRay
        = some (probeRayOf outP bs ctx0) ∧
    (probeRayOf outP bs ctx0).org
        = outP.point + (pickedOf outP ctx0).basis.transformToParent
            ⟨bs.point.1, hOf bs, bs.point.2⟩ ∧
    exitPointOf outP bs ctx0
        = outP.point + (pickedOf outP ctx0).basis.transformToParent
            ⟨bs.point.1, -hOf bs, bs.point.2⟩ ∧
    (probeRayOf outP bs ctx0).dir = -(pickedOf outP ctx0).basis.n ∧
    (probeRayOf outP bs ctx0).tmin = 0 ∧
    (probeRayOf outP bs ctx0).tmax = 2 * hOf bs ∧
    (probeRayOf outP bs ctx0).time = outP.time ∧
    (probeRayOf outP bs ctx0).visibility = Visibility.ProbeRay ∧
    (probeRayOf outP bs ctx0).depth = outP.rayDepth + 1 ∧
    hOf bs ^ 2 + squareNorm2 bs.point = bs.rmax2 ∧
    (exitPointOf outP bs ctx0 - entryPointOf outP bs ctx0).norm = 2 * hOf bs := by
  refine ⟨?_, rfl, rfl, rfl, rfl, rfl, rfl, rfl, rfl, ?_, ?_⟩
  · rw [sample_traced hsf hrad]
    rfl
  · have := hOf_sq bs hrad
    linarith
  · exact exit_entry_dist outP bs ctx0 hn hu hv

/-- Witness for C3 at a concrete on-axis sample. -/
theorem C3_probe_segment_witness :
    (SubsurfaceSampler.sample bump0 sctx0 outP0 bssrdf0 []).probeRay
        = some (probeRayOf outP0 bs0 sctx0) ∧
    hOf bs0 ^ 2 + squareNorm2 bs0.point = bs0.rmax2 ∧
    (exitPointOf outP0 bs0 sctx0 - entryPointOf outP0 bs0 sctx0).norm
        = 2 * hOf bs0 := by
  obtain ⟨h1, -, -, -, -, -, -, -, -, h10, h11⟩ :=
    C3_probe_segment bump0 sctx0 outP0 bssrdf0 [] bs0 sctx0 rfl
      (by norm_num [bs0, squareNorm2])
      (by norm_num [outP0, basis0, axisY, Vec3.squareNorm, Vec3.dot])
      (by norm_num [outP0, basis0, axisX, Vec3.squareNorm, Vec3.dot])
      (by norm_num [outP0, basis0, axisZ, Vec3.squareNorm, Vec3.dot])
  exact ⟨h1, h10, h11⟩

/-- Claim C10: samples with radius squared exceeding rmax squared are
rejected before any height computation, so whenever the hemisphere height is
computed the guard rmax squared at least radius squared already holds; the
assertion at the height computation cannot fail and
h = sqrt(rmax squared - radius squared) is well defined, with a non-negative
argument. -/
theorem C10_height_assertion (oslBump : ShadingPoint → ℝ × ℝ → Vec3)
    (ctx : SamplingContext) (outP : ShadingPoint) (B : BSSRDF)
    (hits : List ShadingPoint) (bs : BSSRDFSample) (ctx0 : SamplingContext)
    (hsf : B.sampleFn ctx = some (bs, ctx0)) :
    (squareNorm2 bs.point > bs.rmax2 →
      SubsurfaceSampler.sample oslBump ctx outP B hits
          = SampleOutcome.radiusRejected ∧
      (SubsurfaceSampler.sample oslBump ctx outP B hits).probeRay = none) ∧
    (¬ squareNorm2 bs.point > bs.rmax2 →
      (SubsurfaceSampler.sample oslBump ctx outP B hits).probeRay
          = some (probeRayOf outP bs ctx0) ∧
      squareNorm2 bs.point ≤ bs.rmax2 ∧
      0 ≤ bs.rmax2 - squareNorm2 bs.point ∧
      0 ≤ hOf bs ∧
      hOf bs ^ 2 = bs.rmax2 - squareNorm2 bs.point) := by
  refine ⟨fun hgt => ?_, fun hrad => ?_⟩
  · rw [sample_rejected hsf hgt]
    exact ⟨rfl, rfl⟩
  · have hle := not_lt.mp hrad
    refine ⟨?_, hle, by linarith, Real.sqrt_nonneg _, hOf_sq bs hrad⟩
    rw [sample_traced hsf hrad]
    rfl

/-- Witness for C10 on a rejected and an accepted sample. -/
theorem C10_height_assertion_witness :
    SubsurfaceSampler.sample bump0 sctx0 outP0 bssrdfFar []
        = SampleOutcome.radiusRejected ∧
    0 ≤ hOf bs0 ∧
    hOf bs0 ^ 2 = bs0.rmax2 - squareNorm2 bs0.point := by
  refine ⟨((C10_height_assertion bump0 sctx0 outP0 bssrdfFar [] bsFar sctx0 rfl).1
      (by norm_num [bsFar, squareNorm2])).1, ?_, ?_⟩
  · exact ((C10_height_assertion bump0 sctx0 outP0 bssrdf0 [] bs0 sctx0 rfl).2
      (by norm_num [bs0, squareNorm2])).2.2.2.1
  · exact ((C10_height_assertion bump0 sctx0 outP0 bssrdf0 [] bs0 sctx0 rfl).2
      (by norm_num [bs0, squareNorm2])).2.2.2.2

theorem step_trans (dirV : Vec3) {p q r : Vec3}
    (h1 : ∃ t : ℝ, 0 ≤ t ∧ q = p + t • dirV) (h2 : ∃ t : ℝ, 0 ≤ t ∧ r = q + t • dirV) :
    ∃ t : ℝ, 0 ≤ t ∧ r = p + t • dirV := by
  obtain ⟨a, ha, rfl⟩ := h1
  obtain ⟨c, hc, rfl⟩ := h2
  refine ⟨a + c, by linarith, ?_⟩
  ext <;> simp <;> ring

theorem chain_step_pairwise (dirV : Vec3) :
    ∀ (pts : List Vec3) (p0 : Vec3),
      List.Chain' (fun p q => ∃ t : ℝ, 0 ≤ t ∧ q = p + t • dirV) (p0 :: pts) →
      List.Pairwise (fun p q => ∃ t : ℝ, 0 ≤ t ∧ q = p + t • dirV) (p0 :: pts) := by
  intro pts
  induction pts with
  | nil =>
    intro p0 _
    simp
  | cons p1 rest ih =>
    intro p0 hch
    rw [List.chain'_cons] at hch
    obtain ⟨h01, hch1⟩ := hch
    have hp := ih p1 hch1
    rw [List.pairwise_cons]
    refine ⟨?_, hp⟩
    intro q hq
    rcases List.mem_cons.mp hq with hq | hq
    · subst hq
      exact h01
    · exact step_trans dirV h01 ((List.pairwise_cons.mp hp).1 q hq)

theorem dist_le_of_steps (entry dirV : Vec3) {p q : Vec3}
    (hp : ∃ t : ℝ, 0 ≤ t ∧ p = entry + t • dirV)
    (hq : ∃ t : ℝ, 0 ≤ t ∧ q = p + t • dirV) :
    (p - entry).norm ≤ (q - entry).norm := by
  obtain ⟨a, ha, rfl⟩ := hp
  obtain ⟨c, hc, hqe⟩ := hq
  have hps : (entry + a • dirV) - entry = a • dirV := by
    ext <;> simp
  have hqs : q - entry = (a + c) • dirV := by
    subst hqe
    ext <;> simp <;> ring
  rw [hps, hqs, Vec3.norm_smul, Vec3.norm_smul]
  have habs : |a| ≤ |a + c| := by
    rw [abs_of_nonneg ha, abs_of_nonneg (by linarith)]
    linarith
  exact mul_le_mul_of_nonneg_right habs (Vec3.norm_nonneg dirV)

/-- Claim C6: after every intersection the probe ray's origin is moved to the
hit point and its maximum distance is set to the distance from that hit point
to the exit point; assuming the intersection service only reports hits along
the current ray's segment, the Result Sink invocations of one sampler call
are ordered from nearest to farthest from the entry point. -/
theorem C6_traversal_order (oslBump : ShadingPoint → ℝ × ℝ → Vec3)
    (ctx : SamplingContext) (outP : ShadingPoint) (B : BSSRDF)
    (hits : List ShadingPoint) (bs : BSSRDFSample) (ctx0 : SamplingContext)
    (hsf : B.sampleFn ctx = some (bs, ctx0))
    (hrad : ¬ squareNorm2 bs.point > bs.rmax2)
    (H : List.Chain'
        (fun p q => ∃ t : ℝ, 0 ≤ t ∧ q = p + t • (probeRayOf outP bs ctx0).dir)
        ((probeRayOf outP bs ctx0).org :: hits.map fun p => p.point)) :
    (SubsurfaceSampler.sample oslBump ctx outP B hits).rayList.length
        = hits.length + 1 ∧
    (SubsurfaceSampler.sample oslBump ctx outP B hits).rayList.getD 0 dummyRay
        = probeRayOf outP bs ctx0 ∧
    (∀ r ∈ (SubsurfaceSampler.sample oslBump ctx outP B hits).rayList,
      r.dir = (probeRayOf outP bs ctx0).dir) ∧
    (∀ i, i < hits.length →
      ((SubsurfaceSampler.sample oslBump ctx outP B hits).rayList.getD (i + 1)
          dummyRay).org = (hits.getD i dummyPoint).point ∧
      ((SubsurfaceSampler.sample oslBump ctx outP B hits).rayList.getD (i + 1)
          dummyRay).tmax
          = (exitPointOf outP bs ctx0 - (hits.getD i dummyPoint).point).norm) ∧
    List.Pairwise
      (fun c c' =>
        (c.incoming.point - (probeRayOf outP bs ctx0).org).norm
          ≤ (c'.incoming.point - (probeRayOf outP bs ctx0).org).norm)
      (SubsurfaceSampler.sample oslBump ctx outP B hits).sinkCalls := by
  have hrays := traceLoop_rays_spec B bs (samplePdfOf B bs)
    (pickedOf outP ctx0).basisPdf (pickedOf outP ctx0).axis
    (pickedOf outP ctx0).basis oslBump (exitPointOf outP bs ctx0) outP.point
    outP.material hits (probeRayOf outP bs ctx0) (ctx0.nextScalar).2
  have hspec := traceLoop_emitted_spec B bs (samplePdfOf B bs)
    (pickedOf outP ctx0).basisPdf (pickedOf outP ctx0).axis
    (pickedOf outP ctx0).basis oslBump (exitPointOf outP bs ctx0) outP.point
    outP.material hits (probeRayOf outP bs ctx0) (ctx0.nextScalar).2
  refine ⟨?_, ?_, ?_, ?_, ?_⟩
  · rw [sample_traced hsf hrad]
    simpa [SampleOutcome.rayList, loopOf] using hrays.1
  · rw [sample_traced hsf hrad]
    simpa [SampleOutcome.rayList, loopOf] using hrays.2.1
  · rw [sample_traced hsf hrad]
    intro r hr
    exact hrays.2.2.1 r (by simpa [SampleOutcome.rayList, loopOf] using hr)
  · rw [sample_traced hsf hrad]
    intro i hi
    have hidx := hrays.2.2.2 i hi
    simpa [SampleOutcome.rayList, loopOf] using hidx
  · rw [sample_traced hsf hrad]
    have hpw0 := chain_step_pairwise ((probeRayOf outP bs ctx0).dir)
      (hits.map fun p => p.point) ((probeRayOf outP bs ctx0).org) H
    rw [List.pairwise_cons] at hpw0
    have hpw_pts :
        List.Pairwise
          (fun p q =>
            (p - (probeRayOf outP bs ctx0).org).norm
              ≤ (q - (probeRayOf outP bs ctx0).org).norm)
          (hits.map fun p => p.point) :=
      hpw0.2.imp_of_mem fun {a b} ha _ hab =>
        dist_le_of_steps _ _ (hpw0.1 a ha) hab
    have hsub :
        ((loopOf oslBump outP B bs ctx0 hits).emitted.map
            fun c => c.incoming.point).Sublist
          (hits.map fun p => p.point) := by
      have h1 : ((loopOf oslBump outP B bs ctx0 hits).emitted.map
          fun c => c.incoming.point)
          = ((hits.filter fun p => p.facingMaterial == outP.material).map
              fun p => p.point) := hspec.1
      rw [h1]
      exact List.Sublist.map _ (List.filter_sublist _)
    have hpw_map := hpw_pts.sublist hsub
    have hfinal := List.pairwise_map.mp hpw_map
    simpa [SampleOutcome.sinkCalls] using hfinal

/-- Witness for C6 on a run with no intersections. -/
theorem C6_traversal_order_witness :
    (SubsurfaceSampler.sample bump0 sctx0 outP0 bssrdf0 []).rayList.length = 1 := by
  have h := C6_traversal_order bump0 sctx0 outP0 bssrdf0 [] bs0 sctx0 rfl
    (by norm_num [bs0, squareNorm2]) (by simp)
  simpa using h.1

/-- Witness for C7: one matching hit without OSL surface consumes exactly the
axis-selection scalar. -/
theorem C7_randomness_order_witness :
    (SubsurfaceSampler.sample bump0 sctx0 outP0 bssrdf0 [hitM]).draws
      = [DrawReq.scalar] := by
  have h := (C7_randomness_order bump0 sctx0 outP0 bssrdf0 [hitM]).2.2 bs0 sctx0
    rfl (by norm_num [bs0, squareNorm2])
  rw [h]
  simp [hitM, outP0, ShadingPoint.facingMaterial]

end Appleseed
